import Mathlib

/-!
Shallow embedding of sumtypes.py: a library that turns a decorated class into a
sum type with registered variant constructors (attrs-backed variant classes) and
provides name-directed pattern matching over the variants, with an eager
exhaustiveness check in the non-partial mode.
-/

set_option autoImplicit false

namespace Sumtypes

variable {α β : Type}

/-- An attr.ib field descriptor; only the global creation counter, which the
keyword form of constructor() sorts by, is relevant to the embedding. -/
structure AttrIb where
  counter : Nat
deriving DecidableEq

/-- The marker object produced by constructor(), holding the ordered
(name, descriptor) list for one variant. -/
structure Ctor where
  attrs : List (String × AttrIb)
deriving DecidableEq

/-- Declaration-time errors: the TypeError raised by constructor() when the
positional and keyword forms are mixed. -/
inductive DeclError where
  | typeErrorMixedArgs : DeclError
deriving DecidableEq

/-- Stable ascending insertion by descriptor counter: insert x after every
already-placed entry whose counter is not larger. -/
def insertByCounter (x : String × AttrIb) :
    List (String × AttrIb) → List (String × AttrIb)
  | [] => [x]
  | y :: ys =>
    if y.2.counter ≤ x.2.counter then y :: insertByCounter x ys else x :: y :: ys

/-- Python sorted(items, key counter): a stable ascending sort by the
descriptor creation counter. -/
def sortByCounter (l : List (String × AttrIb)) : List (String × AttrIb) :=
  l.foldl (fun acc x => insertByCounter x acc) []

/-- constructor(attrnames, attribs): mixing the positional and the keyword
form raises TypeError; the keyword descriptors are sorted by creation counter;
positional names get fresh default descriptors, whose counters are never
consulted again and are modelled as 0. -/
def constructor (attrnames : List String) (attribs : List (String × AttrIb)) :
    Except DeclError Ctor :=
  if attribs ≠ [] ∧ attrnames ≠ [] then
    Except.error DeclError.typeErrorMixedArgs
  else if attribs ≠ [] then
    Except.ok ⟨sortByCounter attribs⟩
  else
    Except.ok ⟨attrnames.map (fun n => (n, ⟨0⟩))⟩

/-- A registered sum type: the decorator records _sumtype_constructor_names in
class-body declaration order. -/
structure SumTypeDecl where
  constructorNames : List String
deriving DecidableEq

/-- The part of _real_decorator the matcher relies on: collect the names of the
class-body entries holding a _Constructor marker, in declaration order. -/
def realDecorator (decls : List (String × Ctor)) : SumTypeDecl :=
  ⟨decls.map Prod.fst⟩

/-- A constructed variant value: a Python object whose concrete type name
(the constructor name) tags it and which carries _sumtype_attribs; fields
holds the attribute values in declared field order, as stored by the
attrs-generated init from the positional arguments. Within one registered sum
type the variant class is identified by its constructor name. -/
structure Value (α : Type) where
  cname : String
  fields : List α
deriving DecidableEq

/-- Calling a variant constructor with positional arguments: the
attrs-generated init stores them as the fields, in declared order. -/
def constructValue (cname : String) (args : List α) : Value α :=
  ⟨cname, args⟩

/-- _get_attrs: read the field values back via getattr in _sumtype_attribs
(declared) order. -/
def getAttrs (v : Value α) : List α :=
  v.fields

/-- The attrs-generated eq on a variant class: the two values belong to the
same variant class and their field tuples are equal. -/
def valueEq [DecidableEq α] (v w : Value α) : Bool :=
  v.cname == w.cname && v.fields == w.fields

/-- A hash for strings, standing in for the hash of the variant class in the
attrs hash tuple. -/
def strHash (s : String) : Nat :=
  s.data.foldl (fun a c => a * 31 + c.toNat) 7

/-- Python tuple hashing, modelled as a left fold mixing the member hashes. -/
def tupleHash (xs : List Nat) : Nat :=
  xs.foldl (fun a h => a * 1000003 + h + 1) 5381

/-- The attrs-generated hash of a variant value: the hash of the tuple made of
the variant class and the field values. -/
def valueHash (hashA : α → Nat) (v : Value α) : Nat :=
  tupleHash (strHash v.cname :: v.fields.map hashA)

/-- The configuration forwarded by the sumtype decorator to attr.s; frozen
classes are immutable and hashable. -/
structure Config where
  frozen : Bool
deriving DecidableEq

/-- attrs generates a hash method only for frozen (eq together with frozen)
classes; otherwise the variant class is unhashable. -/
def valueHashOpt (cfg : Config) (hashA : α → Nat) (v : Value α) : Option Nat :=
  if cfg.frozen then some (valueHash hashA v) else none

/-- Runtime errors of the mapping model: hashing an unhashable key. -/
inductive HashError where
  | unhashableType : HashError
deriving DecidableEq

/-- Python dict lookup with variant-value keys: hashing an unhashable key is a
TypeError; otherwise an entry matches when the stored key hashes to the same
bucket value as the probe and the two keys compare equal. -/
def dictLookup [DecidableEq α] {β : Type} (cfg : Config) (hashA : α → Nat)
    (d : List (Value α × β)) (k : Value α) : Except HashError (Option β) :=
  if cfg.frozen then
    Except.ok ((d.find? fun p =>
      valueHash hashA p.1 == valueHash hashA k && valueEq p.1 k).map Prod.snd)
  else
    Except.error HashError.unhashableType

/-- Dispatch outcomes: ok carries the handler result, err carries the
unhandled_cases payload of a PartialMatchError raised while dispatching. -/
inductive MatchResult (β : Type) where
  | ok : β → MatchResult β
  | err : List String → MatchResult β
deriving DecidableEq

/-- The case-table class handed to the match decorators. methods are the
handler methods written in the class body (handler name to callable, invoked
with the positional-argument list); dflt is the method named with the
underscore wildcard, when written, invoked with the whole value; inherited are
the further attributes the class sees through its bases (such as the dunders
of object), visible to dir and getattr. No base class of a plain case table
provides an attribute named with the underscore wildcard, as object does not,
so the wildcard lookup consults dflt alone. -/
structure CaseTable (α β : Type) where
  methods : List (String × (List α → β))
  dflt : Option (Value α → β)
  inherited : List (String × (List α → β))

/-- dir(klass): every attribute name visible on the case-table class, that is
the written handler methods, the wildcard method when present, and the
inherited attributes. -/
def dirOf (klass : CaseTable α β) : List String :=
  klass.methods.map Prod.fst
    ++ (match klass.dflt with | some _ => ["_"] | none => [])
    ++ klass.inherited.map Prod.fst

/-- getattr(klass, name, None) for handler names: the class body is consulted
first, then the bases. -/
def getattrHandler (klass : CaseTable α β) (name : String) :
    Option (List α → β) :=
  match klass.methods.lookup name with
  | some h => some h
  | none => klass.inherited.lookup name

/-- _matchit: the dispatch closure run(value). It looks the handler up under
the name of the value's concrete type and calls it with the field values as
positional arguments; failing that it calls the wildcard method with the whole
value; failing that it raises PartialMatchError([cname]). -/
def matchit (klass : CaseTable α β) : Value α → MatchResult β := fun value =>
  match getattrHandler klass value.cname with
  | some h => MatchResult.ok (h (getAttrs value))
  | none =>
    match klass.dflt with
    | some h => MatchResult.ok (h value)
    | none => MatchResult.err [value.cname]

/-- The exhaustiveness-checked decorator produced by match(adt): at decoration
time the declared constructor names not visible in dir(klass) form the
unhandled set, and when that set is nonempty and no wildcard name is visible,
PartialMatchError(unhandled) is raised instead of producing a dispatch
function. -/
def match' (adt : SumTypeDecl) (klass : CaseTable α β) :
    Except (Finset String) (Value α → MatchResult β) :=
  if (adt.constructorNames.toFinset \ (dirOf klass).toFinset).Nonempty
      ∧ "_" ∉ (dirOf klass).toFinset then
    Except.error (adt.constructorNames.toFinset \ (dirOf klass).toFinset)
  else
    Except.ok (matchit klass)

/-- The decorator produced by match_partial(adt): it returns _matchit itself,
ignoring the sum type and performing no decoration-time check. -/
def matchPartial (adt : SumTypeDecl) :
    CaseTable α β → Value α → MatchResult β :=
  matchit

/-- Construction outcomes for the conversion-function constructor form: either
a value, or an ArityError carrying the declared field count and the returned
tuple length. -/
inductive ConstructResult (α : Type) where
  | ok : Value α → ConstructResult α
  | arityError : Nat → Nat → ConstructResult α
deriving DecidableEq

/-- Modelled from the spec: the conversion-function constructor form is absent
from src/sumtypes.py, whose constructor() accepts only field names or attr.ib
descriptors. Per the spec, calling the constructor on arguments invokes the
conversion function f on them, the returned tuple becomes the stored fields,
and a returned length disagreeing with the declared field count n is a
construction-time ArityError; construction is pure, so no other variant or
previously-constructed value is affected. -/
def convConstruct (cname : String) (n : Nat) (f : List α → List α)
    (args : List α) : ConstructResult α :=
  if (f args).length = n then ConstructResult.ok ⟨cname, f args⟩
  else ConstructResult.arityError n (f args).length

/-- A three-variant sum type used as concrete witness data. -/
def adtABC : SumTypeDecl :=
  ⟨["A", "B", "C"]⟩

/-- A one-variant sum type whose constructor name collides with an attribute
inherited from object. -/
def adtInit : SumTypeDecl :=
  ⟨["__init__"]⟩

/-- The attribute names a plain case-table class written as class C(object)
sees without writing any method of its own. -/
def objectAttrNames : List String :=
  ["__class__", "__delattr__", "__dict__", "__dir__", "__doc__", "__eq__",
   "__format__", "__ge__", "__getattribute__", "__gt__", "__hash__",
   "__init__", "__init_subclass__", "__le__", "__lt__", "__module__",
   "__ne__", "__new__", "__reduce__", "__reduce_ex__", "__repr__",
   "__setattr__", "__sizeof__", "__str__", "__subclasshook__", "__weakref__"]

/-- The inherited attributes of a plain case-table class, as name-callable
pairs; their call behaviour is never relied on by any claim. -/
def objectInherited : List (String × (List Nat → Nat)) :=
  objectAttrNames.map (fun n => (n, fun _ => 0))

/-- A concrete handler summing its positional arguments. -/
def hA : List Nat → Nat :=
  fun args => args.foldl (fun a b => a + b) 0

/-- A concrete handler counting its positional arguments. -/
def hB : List Nat → Nat :=
  fun args => args.length

/-- A concrete wildcard handler. -/
def dfltFun : Value Nat → Nat :=
  fun v => v.fields.length + 100

/-- A case table handling only variants A and B, with no wildcard method. -/
def tableAB : CaseTable Nat Nat :=
  ⟨[("A", hA), ("B", hB)], none, objectInherited⟩

/-- A case table handling variant A with a wildcard method. -/
def tableADflt : CaseTable Nat Nat :=
  ⟨[("A", hA)], some dfltFun, objectInherited⟩

/-- A case table whose only handler name Z is not a variant of adtABC. -/
def tableZ : CaseTable Nat Nat :=
  ⟨[("Z", hA)], none, objectInherited⟩

/-- A case table with no written methods at all, over a plain object base. -/
def tableEmptyObj : CaseTable Nat Nat :=
  ⟨[], none, objectInherited⟩

/-- A concrete conversion function returning its argument list doubled. -/
def convDup : List Nat → List Nat :=
  fun l => l ++ l

/-- Two concrete keyword descriptors with distinct counters. -/
def ibX : AttrIb :=
  ⟨5⟩

/-- A second concrete keyword descriptor. -/
def ibY : AttrIb :=
  ⟨3⟩

/-- Unfold valueEq into the propositional conjunction of its two checks. -/
theorem valueEq_eq_true_iff {α : Type} [DecidableEq α] {v w : Value α} :
    valueEq v w = true ↔ v.cname = w.cname ∧ v.fields = w.fields := by
  unfold valueEq
  rw [Bool.and_eq_true, beq_iff_eq, beq_iff_eq]

/-- valueEq is equality of the modelled values. -/
theorem valueEq_eq_true_iff_eq {α : Type} [DecidableEq α] {v w : Value α} :
    valueEq v w = true ↔ v = w := by
  rw [valueEq_eq_true_iff]
  constructor
  · rintro ⟨h1, h2⟩
    cases v
    cases w
    simp_all
  · rintro rfl
    exact ⟨rfl, rfl⟩

/-- Dispatch on a value whose type name has a written handler method calls
that handler on the field values. -/
theorem matchit_handled {α β : Type} {klass : CaseTable α β} {v : Value α}
    {h : List α → β} (hl : klass.methods.lookup v.cname = some h) :
    matchit klass v = MatchResult.ok (h v.fields) := by
  simp [matchit, getattrHandler, getAttrs, hl]

/-- Dispatch on a value with no handler attribute falls back to the wildcard
method, applied to the whole value. -/
theorem matchit_defaulted {α β : Type} {klass : CaseTable α β} {v : Value α}
    {d : Value α → β} (hl : getattrHandler klass v.cname = none)
    (hd : klass.dflt = some d) :
    matchit klass v = MatchResult.ok (d v) := by
  simp [matchit, hl, hd]

/-- Dispatch on a value with no handler attribute and no wildcard method
raises PartialMatchError naming just that type name. -/
theorem matchit_unhandled {α β : Type} {klass : CaseTable α β} {v : Value α}
    (hl : getattrHandler klass v.cname = none) (hd : klass.dflt = none) :
    matchit klass v = MatchResult.err [v.cname] := by
  simp [matchit, hl, hd]

/-- When decoration succeeds, the produced dispatch function is the one
_matchit builds, independently of the sum type. -/
theorem match_ok_run {α β : Type} {adt : SumTypeDecl} {klass : CaseTable α β}
    {r : Value α → MatchResult β} (hr : match' adt klass = Except.ok r) :
    r = matchit klass := by
  unfold match' at hr
  split at hr
  · simp at hr
  · injection hr with h
    exact h.symm

/-- Inherited attribute names are visible in dir. -/
theorem mem_dirOf_of_inherited {α β : Type} {klass : CaseTable α β}
    {c : String} (hc : c ∈ klass.inherited.map Prod.fst) :
    c ∈ dirOf klass := by
  unfold dirOf
  exact List.mem_append.mpr (Or.inr hc)

/-- C1: for every sum type and every non-partial match table lacking a handler
attribute for at least one declared variant and showing no wildcard method,
match raises PartialMatchError at decoration time, before any dispatch occurs
(no dispatch function is produced), and its payload is exactly the set of
unhandled variant names. -/
theorem claimC1 {α β : Type} (adt : SumTypeDecl) (klass : CaseTable α β)
    (hmiss : ∃ c ∈ adt.constructorNames, c ∉ dirOf klass)
    (hnodef : "_" ∉ dirOf klass) :
    match' adt klass =
      Except.error (adt.constructorNames.toFinset \ (dirOf klass).toFinset) := by
  have h1 : (adt.constructorNames.toFinset \ (dirOf klass).toFinset).Nonempty := by
    obtain ⟨c, hc, hcn⟩ := hmiss
    exact ⟨c, Finset.mem_sdiff.mpr ⟨List.mem_toFinset.mpr hc,
      fun hx => hcn (List.mem_toFinset.mp hx)⟩⟩
  have h2 : "_" ∉ (dirOf klass).toFinset :=
    fun hx => hnodef (List.mem_toFinset.mp hx)
  unfold match'
  rw [if_pos ⟨h1, h2⟩]

/-- Witness for C1: the table covering only A and B of the sum type with
variants A, B, C and no wildcard raises at decoration time, naming the set
difference, which is the singleton set containing C. -/
theorem claimC1_witness :
    (∃ c ∈ adtABC.constructorNames, c ∉ dirOf tableAB)
    ∧ "_" ∉ dirOf tableAB
    ∧ match' adtABC tableAB =
        Except.error (adtABC.constructorNames.toFinset \ (dirOf tableAB).toFinset)
    ∧ adtABC.constructorNames.toFinset \ (dirOf tableAB).toFinset = {"C"} :=
  ⟨by decide, by decide, claimC1 adtABC tableAB (by decide) (by decide),
    by decide⟩

/-- C2: match_partial performs no decoration-time check (it returns the bare
dispatch closure for every table); the dispatch succeeds on every variant with
a written handler, and on a variant with no handler attribute and no wildcard
it raises PartialMatchError whose payload is the one-element list naming that
variant. -/
theorem claimC2 {α β : Type} (adt : SumTypeDecl) (klass : CaseTable α β) :
    matchPartial adt klass = matchit klass
    ∧ (∀ (v : Value α) (h : List α → β),
        klass.methods.lookup v.cname = some h →
        matchPartial adt klass v = MatchResult.ok (h v.fields))
    ∧ (∀ v : Value α,
        getattrHandler klass v.cname = none → klass.dflt = none →
        matchPartial adt klass v = MatchResult.err [v.cname]) :=
  ⟨rfl, fun _ _ hl => matchit_handled hl, fun _ hl hd => matchit_unhandled hl hd⟩

/-- Witness for C2: the incomplete table over A and B dispatches A
successfully and raises PartialMatchError naming exactly C on a C value. -/
theorem claimC2_witness :
    tableAB.methods.lookup "A" = some hA
    ∧ matchPartial adtABC tableAB ⟨"A", [5]⟩ = MatchResult.ok (hA [5])
    ∧ getattrHandler tableAB "C" = none
    ∧ tableAB.dflt = none
    ∧ matchPartial adtABC tableAB ⟨"C", [7]⟩ = MatchResult.err ["C"] :=
  ⟨rfl, (claimC2 adtABC tableAB).2.1 ⟨"A", [5]⟩ hA rfl, rfl, rfl,
    (claimC2 adtABC tableAB).2.2 ⟨"C", [7]⟩ rfl rfl⟩

/-- C3: two variant values of one sum type compare equal exactly when they
carry the same constructor tag and their field tuples agree elementwise in
declared order; values of two distinct constructors are never equal, even on
identical field tuples. -/
theorem claimC3 {α : Type} [DecidableEq α] :
    (∀ v w : Value α, valueEq v w = true ↔
        (v.cname = w.cname ∧ v.fields.length = w.fields.length ∧
          ∀ (i : Nat) (h1 : i < v.fields.length) (h2 : i < w.fields.length),
            v.fields.get ⟨i, h1⟩ = w.fields.get ⟨i, h2⟩))
    ∧ (∀ (c1 c2 : String) (l1 l2 : List α), c1 ≠ c2 →
        valueEq ⟨c1, l1⟩ ⟨c2, l2⟩ = false) := by
  constructor
  · intro v w
    obtain ⟨cv, fv⟩ := v
    obtain ⟨cw, fw⟩ := w
    rw [valueEq_eq_true_iff]
    simp only
    constructor
    · rintro ⟨h1, h2⟩
      subst h2
      exact ⟨h1, rfl, fun i hh1 hh2 => rfl⟩
    · rintro ⟨h1, hlen, helt⟩
      exact ⟨h1, List.ext_get hlen helt⟩
  · intro c1 c2 l1 l2 hne
    unfold valueEq
    have : (c1 == c2) = false := beq_eq_false_iff_ne.mpr hne
    rw [this, Bool.false_and]

/-- Witness for C3: equal tag and fields compare equal; distinct tags with
identical fields compare unequal. -/
theorem claimC3_witness :
    valueEq (⟨"A", [1, 2]⟩ : Value Nat) ⟨"A", [1, 2]⟩ = true
    ∧ valueEq (⟨"A", [1, 2]⟩ : Value Nat) ⟨"B", [1, 2]⟩ = false :=
  ⟨(claimC3.1 ⟨"A", [1, 2]⟩ ⟨"A", [1, 2]⟩).mpr ⟨rfl, rfl, fun _ _ _ => rfl⟩,
    claimC3.2 "A" "B" [1, 2] [1, 2] (by decide)⟩

/-- C4: for a constructor declared with a conversion function, construction
invokes the conversion on the raw arguments and stores the returned tuple as
the fields; a returned length disagreeing with the declared count is an
ArityError at construction time. The model is pure, so the error touches no
other variant or previously-constructed value. -/
theorem claimC4 {α : Type} (cname : String) (n : Nat) (f : List α → List α)
    (args : List α) :
    ((f args).length = n →
      convConstruct cname n f args = ConstructResult.ok ⟨cname, f args⟩)
    ∧ ((f args).length ≠ n →
      convConstruct cname n f args =
        ConstructResult.arityError n (f args).length) := by
  constructor
  · intro h
    unfold convConstruct
    rw [if_pos h]
  · intro h
    unfold convConstruct
    rw [if_neg h]

/-- Witness for C4: the doubling conversion on one argument matches a declared
count of two and constructs the value; on two arguments against a declared
count of three it is an ArityError carrying three and four. -/
theorem claimC4_witness :
    ((convDup [3]).length = 2
      ∧ convConstruct "Pair" 2 convDup [3] =
          ConstructResult.ok ⟨"Pair", convDup [3]⟩)
    ∧ ((convDup [3, 4]).length ≠ 3
      ∧ convConstruct "Triple" 3 convDup [3, 4] =
          ConstructResult.arityError 3 (convDup [3, 4]).length) :=
  ⟨⟨by decide, (claimC4 "Pair" 2 convDup [3]).1 (by decide)⟩,
    ⟨by decide, (claimC4 "Triple" 3 convDup [3, 4]).2 (by decide)⟩⟩

/-- C5: every dispatch function produced by match or by match_partial, on a
value whose type name has a written handler, calls that handler with the field
values as positional arguments in declared order and returns its result
unchanged. -/
theorem claimC5 {α β : Type} (adt : SumTypeDecl) (klass : CaseTable α β)
    (cname : String) (args : List α) (h : List α → β)
    (hl : klass.methods.lookup cname = some h) :
    (∀ r, match' adt klass = Except.ok r →
        r (constructValue cname args) = MatchResult.ok (h args))
    ∧ matchPartial adt klass (constructValue cname args) =
        MatchResult.ok (h args) := by
  have hm : matchit klass (constructValue cname args) = MatchResult.ok (h args) :=
    matchit_handled hl
  exact ⟨fun r hr => by rw [match_ok_run hr]; exact hm, hm⟩

/-- Witness for C5: dispatching a B value built from positional arguments runs
the B handler on exactly that argument list. -/
theorem claimC5_witness :
    tableAB.methods.lookup "B" = some hB
    ∧ matchPartial adtABC tableAB (constructValue "B" [7, 8]) =
        MatchResult.ok (hB [7, 8]) :=
  ⟨rfl, (claimC5 adtABC tableAB "B" [7, 8] hB rfl).2⟩

/-- C6: every dispatch function, on a value whose type name has no handler
attribute while the table has a wildcard method, calls the wildcard method on
the whole value and returns its result. -/
theorem claimC6 {α β : Type} (adt : SumTypeDecl) (klass : CaseTable α β)
    (v : Value α) (d : Value α → β)
    (hl : getattrHandler klass v.cname = none) (hd : klass.dflt = some d) :
    matchit klass v = MatchResult.ok (d v)
    ∧ matchPartial adt klass v = MatchResult.ok (d v)
    ∧ (∀ r, match' adt klass = Except.ok r → r v = MatchResult.ok (d v)) := by
  have hm := matchit_defaulted hl hd
  exact ⟨hm, hm, fun r hr => by rw [match_ok_run hr]; exact hm⟩

/-- Witness for C6: the table handling only A with a wildcard sends a C value
to the wildcard method, which receives the whole value. -/
theorem claimC6_witness :
    getattrHandler tableADflt "C" = none
    ∧ tableADflt.dflt = some dfltFun
    ∧ matchit tableADflt ⟨"C", [1]⟩ = MatchResult.ok (dfltFun ⟨"C", [1]⟩) :=
  ⟨rfl, rfl, (claimC6 adtABC tableADflt ⟨"C", [1]⟩ dfltFun rfl rfl).1⟩

/-- C7: constructor() raises TypeError at declaration time when the positional
and the keyword form are both supplied, producing no constructor marker, and
succeeds when only one of the two forms is supplied. -/
theorem claimC7 :
    (∀ (ns : List String) (ibs : List (String × AttrIb)), ns ≠ [] → ibs ≠ [] →
        constructor ns ibs = Except.error DeclError.typeErrorMixedArgs)
    ∧ (∀ ns : List String,
        constructor ns [] = Except.ok ⟨ns.map (fun n => (n, ⟨0⟩))⟩)
    ∧ (∀ ibs : List (String × AttrIb), ibs ≠ [] →
        constructor [] ibs = Except.ok ⟨sortByCounter ibs⟩) := by
  refine ⟨fun ns ibs hns hibs => ?_, fun ns => ?_, fun ibs hibs => ?_⟩
  · unfold constructor
    rw [if_pos ⟨hibs, hns⟩]
  · unfold constructor
    rw [if_neg (fun hc => hc.1 rfl), if_neg (fun hc => hc rfl)]
  · unfold constructor
    rw [if_neg (fun hc => hc.2 rfl), if_pos hibs]

/-- Witness for C7: mixing one positional name with one keyword descriptor is
the TypeError; each form alone yields a constructor marker. -/
theorem claimC7_witness :
    constructor ["x"] [("y", ibX)] = Except.error DeclError.typeErrorMixedArgs
    ∧ constructor ["x", "y"] [] =
        Except.ok ⟨["x", "y"].map (fun n => (n, ⟨0⟩))⟩
    ∧ constructor [] [("y", ibX), ("z", ibY)] =
        Except.ok ⟨sortByCounter [("y", ibX), ("z", ibY)]⟩ :=
  ⟨claimC7.1 ["x"] [("y", ibX)] (by decide) (by decide),
    claimC7.2.1 ["x", "y"],
    claimC7.2.2 [("y", ibX), ("z", ibY)] (by decide)⟩

/-- C8: under the frozen configuration, values equal under the generated eq
hash equally, an equal key retrieves a stored entry from a mapping, and values
of two different nullary constructors never act as the same mapping key. -/
theorem claimC8 {α β : Type} [DecidableEq α] (cfg : Config) (hashA : α → Nat)
    (hf : cfg.frozen = true) :
    (∀ v w : Value α, valueEq v w = true →
        valueHashOpt cfg hashA v = valueHashOpt cfg hashA w)
    ∧ (∀ (v w : Value α) (b : β), valueEq v w = true →
        dictLookup cfg hashA [(v, b)] w = Except.ok (some b))
    ∧ (∀ (n1 n2 : String) (b : β), n1 ≠ n2 →
        dictLookup cfg hashA [(⟨n1, []⟩, b)] ⟨n2, []⟩ = Except.ok none) := by
  refine ⟨fun v w hvw => ?_, fun v w b hvw => ?_, fun n1 n2 b hne => ?_⟩
  · rw [valueEq_eq_true_iff_eq.mp hvw]
  · have hv : v = w := valueEq_eq_true_iff_eq.mp hvw
    subst hv
    have hself : valueEq v v = true := valueEq_eq_true_iff_eq.mpr rfl
    unfold dictLookup
    rw [if_pos hf]
    simp [List.find?, hself]
  · have hfalse : valueEq (⟨n1, []⟩ : Value α) ⟨n2, []⟩ = false := by
      unfold valueEq
      rw [beq_eq_false_iff_ne.mpr hne, Bool.false_and]
    unfold dictLookup
    rw [if_pos hf]
    simp [List.find?, hfalse]

/-- Witness for C8: with the frozen configuration over Nat fields, an equal
key finds the stored entry and two distinct nullary tags do not collide. -/
theorem claimC8_witness :
    (Config.mk true).frozen = true
    ∧ valueEq (⟨"A", [1]⟩ : Value Nat) ⟨"A", [1]⟩ = true
    ∧ dictLookup (β := Nat) ⟨true⟩ (fun n => n)
        [((⟨"A", [1]⟩ : Value Nat), 2)] ⟨"A", [1]⟩ = Except.ok (some 2)
    ∧ dictLookup (β := Nat) ⟨true⟩ (fun n => n)
        [((⟨"Nil", []⟩ : Value Nat), 7)] ⟨"Nil2", []⟩ = Except.ok none :=
  ⟨rfl, by decide,
    (claimC8 (β := Nat) ⟨true⟩ (fun n => n) rfl).2.1 ⟨"A", [1]⟩ ⟨"A", [1]⟩ 2
      (by decide),
    (claimC8 (β := Nat) ⟨true⟩ (fun n => n) rfl).2.2 "Nil" "Nil2" 7
      (by decide)⟩

/-- C9: handler selection never consults the sum type the matcher was built
for: match_partial returns the same dispatcher whatever sum type it is given,
a value whose type name has a handler is dispatched to it even when that name
is no variant of the sum type, and the dispatcher a successful match produces
is the same sum-type-independent closure. -/
theorem claimC9 {α β : Type} (adt1 adt2 : SumTypeDecl) (klass : CaseTable α β) :
    matchPartial (α := α) (β := β) adt1 = matchPartial adt2
    ∧ (∀ (v : Value α) (h : List α → β),
        klass.methods.lookup v.cname = some h →
        v.cname ∉ adt1.constructorNames →
        matchPartial adt1 klass v = MatchResult.ok (h v.fields))
    ∧ (∀ r, match' adt1 klass = Except.ok r → r = matchit klass) :=
  ⟨rfl, fun _ _ hl _ => matchit_handled hl, fun _ hr => match_ok_run hr⟩

/-- Witness for C9: a value tagged Z, no variant of the A, B, C sum type, is
dispatched to the Z handler by the matcher built for that sum type. -/
theorem claimC9_witness :
    tableZ.methods.lookup "Z" = some hA
    ∧ "Z" ∉ adtABC.constructorNames
    ∧ matchPartial adtABC tableZ ⟨"Z", [4]⟩ = MatchResult.ok (hA [4]) :=
  ⟨rfl, by decide,
    (claimC9 adtABC ⟨[]⟩ tableZ).2.1 ⟨"Z", [4]⟩ hA rfl (by decide)⟩

/-- C10: the decoration-time exhaustiveness check counts a variant as handled
whenever its name is visible in dir of the case-table class, inherited
attributes included: no inherited attribute name ever appears in the
PartialMatchError payload, and when every variant name is visible in dir the
decoration succeeds even if no handler method was written. -/
theorem claimC10 {α β : Type} (adt : SumTypeDecl) (klass : CaseTable α β) :
    (∀ s, match' adt klass = Except.error s →
        ∀ c ∈ klass.inherited.map Prod.fst, c ∉ s)
    ∧ ((∀ c ∈ adt.constructorNames, c ∈ dirOf klass) →
        match' adt klass = Except.ok (matchit klass)) := by
  constructor
  · intro s hs c hc
    unfold match' at hs
    split at hs
    · injection hs with hs
      subst hs
      intro hmem
      exact (Finset.mem_sdiff.mp hmem).2
        (List.mem_toFinset.mpr (mem_dirOf_of_inherited hc))
    · simp at hs
  · intro hall
    unfold match'
    rw [if_neg]
    rintro ⟨⟨c, hc⟩, -⟩
    have h1 := Finset.mem_sdiff.mp hc
    exact h1.2 (List.mem_toFinset.mpr (hall c (List.mem_toFinset.mp h1.1)))

/-- Witness for C10: a sum type with the single variant named like the dunder
init method decorates a case table with no written methods at all without any
PartialMatchError, because the inherited attribute makes the name visible. -/
theorem claimC10_witness :
    tableEmptyObj.methods = ([] : List (String × (List Nat → Nat)))
    ∧ (∀ c ∈ adtInit.constructorNames, c ∈ dirOf tableEmptyObj)
    ∧ match' adtInit tableEmptyObj = Except.ok (matchit tableEmptyObj) :=
  ⟨rfl, by decide, (claimC10 adtInit tableEmptyObj).2 (by decide)⟩

end Sumtypes
